import Mathlib

/-!
Shallow embedding of the BioPhi CDR-grafting CLI pipeline
(`biophi/humanization/cli/cdrgraft.py`).

External capabilities (abnumber chain parsing, the humanization transform,
OASis humanness scoring) are modelled as oracle functions collected in an
`Env`; fallible calls return `Except String _` where the `String` is the
exception text.  Console warnings/errors emitted with `click.echo` are
modelled as a list of `LogMsg` values, one constructor per distinct message
template in the source.
-/

namespace BioPhiCdrGraft

/-- Decidable equality for `Except`, used to evaluate oracle outcomes. -/
instance exceptDecEq {ε α : Type} [DecidableEq ε] [DecidableEq α] :
    DecidableEq (Except ε α)
  | .error a, .error b =>
    if h : a = b then .isTrue (by rw [h])
    else .isFalse (by intro hc; cases hc; exact h rfl)
  | .error _, .ok _ => .isFalse (by intro hc; cases hc)
  | .ok _, .error _ => .isFalse (by intro hc; cases hc)
  | .ok a, .ok b =>
    if h : a = b then .isTrue (by rw [h])
    else .isFalse (by intro hc; cases hc; exact h rfl)

/-- One FASTA record as yielded by `iterate_fasta`: identifier and raw
residue string. -/
structure FastaRecord where
  id : String
  seq : String
deriving DecidableEq, Repr

/-- Model of an abnumber `Chain` object: residues, `name` attribute,
heavy/light classification, and the optional `v_gene` attribute
(`hasattr(chain, 'v_gene')` is modelled by `Option`). -/
structure MChain where
  seq : String
  name : String
  is_heavy : Bool
  v_gene : Option String
deriving DecidableEq, Repr

/-- One humanized sub-chain of a `HumanizationResult` (the source reads
`.humanized_chain` and `.num_mutations()` off it). -/
structure SubResult where
  humanized_chain : MChain
  num_mutations : Nat
deriving DecidableEq, Repr

/-- Result of `humanize_antibody`: optional VH and VL sub-results plus the
text returned by `get_alignment_string()`. -/
structure HumanizationResult where
  vh : Option SubResult
  vl : Option SubResult
  alignment : String
deriving DecidableEq, Repr

/-- Per-chain humanness as consumed by the report writer
(`get_oasis_identity(min_frac)` is modelled as the already-extracted
score value). -/
structure ChainHumanness where
  identity : Int
deriving DecidableEq, Repr

/-- Antibody-level humanness returned by `get_antibody_humanness`:
overall identity/percentile and optional per-chain sub-scores. -/
structure AntibodyHumanness where
  identity : Int
  percentile : Int
  vh : Option ChainHumanness
  vl : Option ChainHumanness
deriving DecidableEq, Repr

/-- `CDRGraftingHumanizationParams`, fixed for the whole run. -/
structure HParams where
  scheme : String
  cdr_definition : String
  heavy_v_germline : String
  light_v_germline : String
  backmutate_vernier : Bool
  sapiens_iterations : Nat
deriving DecidableEq, Repr

/-- External capabilities: `Chain(...)` construction/classification (raises
`ChainParseError`, modelled as `.error`), `humanize_antibody` (may raise any
exception), and `get_antibody_humanness` (may raise any exception). -/
structure Env where
  classify : HParams → String → Except String MChain
  humanize : Option MChain → Option MChain → HParams → Except String HumanizationResult
  humanness : Option MChain → Option MChain → Except String AntibodyHumanness

/-- Console messages for non-fatal failures, one constructor per
`click.echo` template in the source:
* `couldNotParse rid e`   = `Warning: Could not parse {rid}: {e}`
  (fasta-only mode, `except ChainParseError` handler);
* `errorProcessing rid e` = `Error processing {rid}: {e}`
  (fasta-only generic handler, and the single handler of full-report mode);
* `oasisWarning rid e`    = `Warning: Could not compute OASis scores for {rid}: {e}`
  (full-report humanness handler);
* `oasisNoId e`           = `Could not compute OASis scores: {e}`
  (interactive humanness handler; carries no record identifier). -/
inductive LogMsg where
  | couldNotParse (rid e : String)
  | errorProcessing (rid e : String)
  | oasisWarning (rid e : String)
  | oasisNoId (e : String)
deriving DecidableEq, Repr

/-- An output FASTA entry (Bio `SeqRecord`): id, residues, description. -/
structure OutRecord where
  id : String
  seq : String
  description : String
deriving DecidableEq, Repr

/-- `records = records[:limit]` guarded by `if limit:` — Python truthiness
means `None` and `0` both leave the list untouched. -/
def applyLimit (limit : Option Nat) (records : List FastaRecord) : List FastaRecord :=
  match limit with
  | none => records
  | some n => if n = 0 then records else records.take n

/-- The description string built inline in `cdrgraft_fasta_only`
(lines 148-156): identifier, chain type, method summary
(CDR definition, Vernier flag, Sapiens iterations when > 0) and the
assigned germline (`v_gene` if present, else `auto`). -/
def fastaOnlyDescription (hp : HParams) (rid : String) (hc : MChain) : String :=
  let chain_type := if hc.is_heavy then "VH" else "VL"
  let method_desc := "CDR_Grafted_" ++ hp.cdr_definition ++ "_"
    ++ (if hp.backmutate_vernier then "Vernier_" else "")
    ++ (if hp.sapiens_iterations > 0 then
          "Sapiens_" ++ toString hp.sapiens_iterations ++ "iter_" else "")
  let germline := match hc.v_gene with
    | some g => g
    | none => "auto"
  rid ++ " " ++ chain_type ++ " (Humanized " ++ rid ++ " " ++ method_desc
    ++ germline ++ " BioPhi)"

/-- Modelled from the spec: `CDRGraftingHumanizationParams.get_export_name`
lives in `biophi.humanization.methods.humanization`, which is not among the
sources at hand.  Per the spec the humanization method summary encodes the
CDR definition, the Vernier flag and the refinement iteration count when
greater than 0 (mirroring the inline construction in fasta-only mode);
it is a function of the run parameters only. -/
def HParams.get_export_name (p : HParams) : String :=
  "CDR_Grafted_" ++ p.cdr_definition ++ "_"
    ++ (if p.backmutate_vernier then "Vernier_" else "")
    ++ (if p.sapiens_iterations > 0 then
          "Sapiens_" ++ toString p.sapiens_iterations ++ "iter_" else "")

/-- The description string built in `cdrgraft_full_report` (lines 252-253):
identifier, chain type and `get_export_name()`; no assigned germline. -/
def fullReportDescription (hp : HParams) (rid chain_type : String) : String :=
  rid ++ " " ++ chain_type ++ " (Humanized " ++ rid ++ " "
    ++ hp.get_export_name ++ "BioPhi)"

/-- `chain.name = record.id` after construction. -/
def withName (rid : String) (c : MChain) : MChain := { c with name := rid }

/-- The heavy/light routing of a classified chain (lines 139/143 and
210-217): a heavy chain goes into the VH slot, a light chain into the VL
slot; the other slot is `None`. -/
def routeChains (c : MChain) : Option MChain × Option MChain :=
  if c.is_heavy then (some c, none) else (none, some c)

/-- The humanized chains of a result, as passed to the second
`get_antibody_humanness` call (lines 231-232). -/
def humanizedChains (result : HumanizationResult) : Option MChain × Option MChain :=
  (result.vh.map (fun s => s.humanized_chain),
   result.vl.map (fun s => s.humanized_chain))

/-- Per-record body of the `cdrgraft_fasta_only` loop (lines 133-171):
classify, route to `humanize_antibody` by chain type, and build the output
record; `ChainParseError` and generic exceptions are caught by distinct
handlers. Returns the optional output record and the log entries. -/
def processFastaOnly (env : Env) (hp : HParams) (r : FastaRecord) :
    Option OutRecord × List LogMsg :=
  match env.classify hp r.seq with
  | .error e => (none, [.couldNotParse r.id e])
  | .ok c0 =>
    let chain := withName r.id c0
    let rc := routeChains chain
    match env.humanize rc.1 rc.2 hp with
    | .error e => (none, [.errorProcessing r.id e])
    | .ok result =>
      let humanized_chain := if chain.is_heavy
        then result.vh.map (fun s => s.humanized_chain)
        else result.vl.map (fun s => s.humanized_chain)
      match humanized_chain with
      | none => (none, [])
      | some hc =>
        (some ⟨r.id, hc.seq, fastaOnlyDescription hp r.id hc⟩, [])

/-- The `cdrgraft_fasta_only` loop over all (already truncated) records,
accumulating output records and log entries in input order. -/
def runFastaOnly (env : Env) (hp : HParams) :
    List FastaRecord → List OutRecord × List LogMsg
  | [] => ([], [])
  | r :: rs =>
    let (o, lg) := processFastaOnly env hp r
    let (recs, log) := runFastaOnly env hp rs
    (o.toList ++ recs, lg ++ log)

/-- Where the fasta-only artifact goes (lines 174-180): to the `--output`
file if given, else to standard output. -/
structure FastaOnlyOutput where
  toFile : Option (String × List OutRecord)
  toStdout : Option (List OutRecord)
  log : List LogMsg
deriving DecidableEq, Repr

/-- `cdrgraft_fasta_only` (lines 121-182): truncate, process every record,
then write the single sequence artifact to the output path or to stdout. -/
def cdrgraft_fasta_only (env : Env) (hp : HParams) (inputs : List FastaRecord)
    (output : Option String) (limit : Option Nat) : FastaOnlyOutput :=
  let records := applyLimit limit inputs
  let (humanized_records, log) := runFastaOnly env hp records
  match output with
  | some path => ⟨some (path, humanized_records), none, log⟩
  | none => ⟨none, some humanized_records, log⟩

/-- One entry of the `results` list of `cdrgraft_full_report`
(lines 239-244). -/
structure ResultEntry where
  name : String
  humanization : HumanizationResult
  parental_humanness : Option AntibodyHumanness
  humanized_humanness : Option AntibodyHumanness
deriving DecidableEq, Repr

/-- The per-record FASTA entries of full-report mode (lines 246-261): VH
then VL when populated, id suffixed with the chain type, description from
`fullReportDescription`. -/
def fullFastaRecs (hp : HParams) (rid : String) (result : HumanizationResult) :
    List OutRecord :=
  (([result.vh, result.vl]).filterMap id).map (fun cr =>
    let hc := cr.humanized_chain
    let chain_type := if hc.is_heavy then "VH" else "VL"
    OutRecord.mk (rid ++ "_" ++ chain_type) hc.seq
      (fullReportDescription hp rid chain_type))

/-- The humanness block of full-report mode (lines 219-236): active only
with an OASis database; both `get_antibody_humanness` calls sit in ONE
`try`, so a failure of the parental call also skips the humanized call,
while a failure of the humanized call keeps the parental score already
assigned.  Either failure logs one warning naming the record. -/
def oasisBlock (env : Env) (useOasis : Bool) (rid : String)
    (rc : Option MChain × Option MChain) (result : HumanizationResult) :
    (Option AntibodyHumanness × Option AntibodyHumanness) × List LogMsg :=
  if useOasis then
    match env.humanness rc.1 rc.2 with
    | .error e => ((none, none), [LogMsg.oasisWarning rid e])
    | .ok p =>
      match env.humanness (humanizedChains result).1
          (humanizedChains result).2 with
      | .error e => ((some p, none), [LogMsg.oasisWarning rid e])
      | .ok h => ((some p, some h), [])
  else ((none, none), [])

/-- Per-record body of the `cdrgraft_full_report` loop (lines 204-265).
Classification and humanization sit in one `try` whose single
`except Exception` handler logs `Error processing ...` for either failure
kind; the humanness block never drops the record. -/
def processFull (env : Env) (hp : HParams) (useOasis : Bool) (r : FastaRecord) :
    Option (ResultEntry × List OutRecord) × List LogMsg :=
  match env.classify hp r.seq with
  | .error e => (none, [.errorProcessing r.id e])
  | .ok c0 =>
    let rc := routeChains (withName r.id c0)
    match env.humanize rc.1 rc.2 hp with
    | .error e => (none, [.errorProcessing r.id e])
    | .ok result =>
      let s := oasisBlock env useOasis r.id rc result
      (some (⟨r.id, result, s.1.1, s.1.2⟩, fullFastaRecs hp r.id result), s.2)

/-- Accumulated state of the `cdrgraft_full_report` loop. -/
structure FullRunState where
  results : List ResultEntry
  humanized_records : List OutRecord
  log : List LogMsg
deriving DecidableEq, Repr

/-- The `cdrgraft_full_report` loop over all (already truncated) records,
in input order. -/
def runFullRecords (env : Env) (hp : HParams) (useOasis : Bool) :
    List FastaRecord → FullRunState
  | [] => ⟨[], [], []⟩
  | r :: rs =>
    let rest := runFullRecords env hp useOasis rs
    match processFull env hp useOasis r with
    | (none, lg) => ⟨rest.results, rest.humanized_records, lg ++ rest.log⟩
    | (some (entry, frecs), lg) =>
      ⟨entry :: rest.results, frecs ++ rest.humanized_records, lg ++ rest.log⟩

/-- One row of the `Overview` sheet (lines 298-320): the humanness columns
are populated only from `humanized_humanness`; mutation counts are summed
over the populated sub-chains. -/
structure OverviewRow where
  antibody : String
  oasisIdentity : Option Int
  oasisPercentile : Option Int
  heavyOasisIdentity : Option Int
  lightOasisIdentity : Option Int
  numMutations : Nat
deriving DecidableEq, Repr

/-- Mutation-count total of lines 313-318: sum over populated sub-chains. -/
def totalMutations (result : HumanizationResult) : Nat :=
  (match result.vh with
    | some v => v.num_mutations
    | none => 0)
  + (match result.vl with
    | some v => v.num_mutations
    | none => 0)

/-- Row construction for one `ResultEntry` (lines 298-320 of the source). -/
def overviewRow (res : ResultEntry) : OverviewRow :=
  let cols : Option Int × Option Int × Option Int × Option Int :=
    match res.humanized_humanness with
    | some hum =>
      (some hum.identity, some hum.percentile,
       hum.vh.map (fun c => c.identity), hum.vl.map (fun c => c.identity))
    | none => (none, none, none, none)
  ⟨res.name, cols.1, cols.2.1, cols.2.2.1, cols.2.2.2,
   totalMutations res.humanization⟩

/-- Artifacts of `cdrgraft_full_report` (lines 267-329): the sequence
artifact goes to stdout when no output directory is given, else to
`humanized.fa`; `alignments.txt` is written only with an output directory
and nonempty results; the Excel `Overview` sheet only additionally when
OASis is configured.  `noValidSequences` records the early
`No valid sequences found!` return (lines 195-197). -/
structure FullReportOutput where
  toStdout : Option (List OutRecord)
  fastaFile : Option (List OutRecord)
  alignmentsFile : Option String
  reportRows : Option (List OverviewRow)
  log : List LogMsg
  noValidSequences : Bool
deriving DecidableEq, Repr

/-- `cdrgraft_full_report` (lines 185-329): truncate, bail out when no
records remain, run the loop, then assemble artifacts. -/
def cdrgraft_full_report (env : Env) (hp : HParams) (inputs : List FastaRecord)
    (output : Option String) (useOasis : Bool) (limit : Option Nat) :
    FullReportOutput :=
  let records := applyLimit limit inputs
  if records.isEmpty then
    ⟨none, none, none, none, [], true⟩
  else
    let st := runFullRecords env hp useOasis records
    match output with
    | none => ⟨some st.humanized_records, none, none, none, st.log, false⟩
    | some _ =>
      ⟨none, some st.humanized_records,
       (if st.results.isEmpty then none
        else some (String.intercalate "\n\n"
          (st.results.map (·.humanization.alignment)))),
       (if useOasis && !st.results.isEmpty then
          some (st.results.map overviewRow) else none),
       st.log, false⟩

/-- Python whitespace as stripped by `str.strip()`. -/
def pyCharIsSpace (c : Char) : Bool :=
  c = ' ' || c = '\t' || c = '\n' || c = '\r' || c = '\x0b' || c = '\x0c'

/-- `line.strip()`: drop leading and trailing whitespace. -/
def pyStrip (s : String) : String :=
  ⟨((s.data.dropWhile pyCharIsSpace).reverse.dropWhile pyCharIsSpace).reverse⟩

/-- `seq.startswith('>')`: the first character is the FASTA header marker. -/
def startsWithGt (s : String) : Bool :=
  match s.data with
  | [] => false
  | c :: _ => c = '>'

/-- The interactive line-collection loop (lines 337-347): strip and collect
non-blank lines; a blank line stops collection once at least one line was
collected, otherwise it is skipped; end of input always stops. -/
def collectSequencesAux : List String → List String → List String
  | [], acc => acc
  | line :: rest, acc =>
    if pyStrip line = "" then
      if acc.isEmpty then collectSequencesAux rest acc else acc
    else collectSequencesAux rest (acc ++ [pyStrip line])

/-- Collected sequences of an interactive session fed the given lines. -/
def collectSequences (ls : List String) : List String :=
  collectSequencesAux ls []

/-- One step of the interactive parse loop (lines 357-369): header lines
(starting with `>`) are skipped; a `ChainParseError` is silently skipped
(no log); a heavy chain overwrites the current VH slot, a light chain the
VL slot (last wins). -/
def parseStep (env : Env) (hp : HParams)
    (acc : Option MChain × Option MChain) (s : String) :
    Option MChain × Option MChain :=
  if startsWithGt s then acc
  else match env.classify hp s with
    | .error _ => acc
    | .ok c =>
      if c.is_heavy then (some (withName "VH" c), acc.2)
      else (acc.1, some (withName "VL" c))

/-- The interactive parse loop over all collected sequences. -/
def parseChains (env : Env) (hp : HParams) (seqs : List String) :
    Option MChain × Option MChain :=
  seqs.foldl (parseStep env hp) (none, none)

/-- Observable outcome of an interactive session:
no sequences at all; sequences but none classified; an exception escaping
the unprotected `humanize_antibody` call; or a completed session with the
alignment text and, when OASis ran and succeeded, its identity/percentile. -/
inductive InteractiveOutcome where
  | noSequences
  | noValidChains
  | uncaughtError (e : String)
  | done (alignment : String) (scores : Option (Int × Int))
deriving DecidableEq, Repr

/-- Outcome plus the non-fatal-failure log of an interactive session. -/
structure InteractiveResult where
  outcome : InteractiveOutcome
  log : List LogMsg
deriving DecidableEq, Repr

/-- `cdrgraft_interactive` (lines 332-393): collect lines, parse chains
(silently skipping unparseable lines), abort when neither chain parsed,
humanize (unprotected), then optionally score humanness with its failure
logged without a record identifier. -/
def cdrgraft_interactive (env : Env) (hp : HParams) (useOasis : Bool)
    (lines : List String) : InteractiveResult :=
  let sequences := collectSequences lines
  if sequences.isEmpty then ⟨.noSequences, []⟩
  else
    let p := parseChains env hp sequences
    if p.1.isNone && p.2.isNone then ⟨.noValidChains, []⟩
    else
      match env.humanize p.1 p.2 hp with
      | .error e => ⟨.uncaughtError e, []⟩
      | .ok result =>
        if useOasis then
          match env.humanness (result.vh.map (·.humanized_chain))
              (result.vl.map (·.humanized_chain)) with
          | .ok h => ⟨.done result.alignment (some (h.identity, h.percentile)), []⟩
          | .error e => ⟨.done result.alignment none, [.oasisNoId e]⟩
        else ⟨.done result.alignment none, []⟩

/-- A record fails classification (`ChainParseError` from `Chain(...)`). -/
def isParseFailure (env : Env) (hp : HParams) (r : FastaRecord) : Bool :=
  match env.classify hp r.seq with
  | .error _ => true
  | .ok _ => false

/-- A record classifies but `humanize_antibody` raises. -/
def isHumanizationFailure (env : Env) (hp : HParams) (r : FastaRecord) : Bool :=
  match env.classify hp r.seq with
  | .error _ => false
  | .ok c0 =>
    match env.humanize (routeChains (withName r.id c0)).1
        (routeChains (withName r.id c0)).2 hp with
    | .error _ => true
    | .ok _ => false

/-- A record survives both classification and humanization. -/
def surviveFull (env : Env) (hp : HParams) (r : FastaRecord) : Bool :=
  !(isParseFailure env hp r) && !(isHumanizationFailure env hp r)

/-! Concrete runs.  The following oracle environments and records give the
pipeline concrete, fully computable instantiations on which the theorems
below can be evaluated. -/

/-- Default-style parameters (Kabat numbering, no Vernier, no Sapiens). -/
def hp0 : HParams := ⟨"kabat", "kabat", "auto", "auto", false, 0⟩

/-- A classifier that rejects the sequence `BADSEQ` and calls `HSEQ` and
`HSEQ2` heavy; anything else parses as a light chain. -/
def classify0 : HParams → String → Except String MChain :=
  fun _ s =>
    if s = "BADSEQ" then .error "invalid sequence"
    else .ok ⟨s, "", s = "HSEQ" || s = "HSEQ2", none⟩

/-- A humanization oracle that succeeds on every chain, marking humanized
sequences with a `HUM` tag and assigning concrete germlines. -/
def humanizeOk : Option MChain → Option MChain → HParams → Except String HumanizationResult :=
  fun vh vl _ =>
    .ok ⟨vh.map (fun c => ⟨⟨"HUM" ++ c.seq, c.name, true, some "IGHV3-23*01"⟩, 3⟩),
         vl.map (fun c => ⟨⟨"HUM" ++ c.seq, c.name, false, some "IGKV1-39*01"⟩, 2⟩),
         "ALN"⟩

/-- Like `humanizeOk` but the auto-selection lands on different germlines. -/
def humanizeOkG2 : Option MChain → Option MChain → HParams → Except String HumanizationResult :=
  fun vh vl _ =>
    .ok ⟨vh.map (fun c => ⟨⟨"HUM" ++ c.seq, c.name, true, some "IGHV1-2*01"⟩, 3⟩),
         vl.map (fun c => ⟨⟨"HUM" ++ c.seq, c.name, false, some "IGKV3-11*01"⟩, 2⟩),
         "ALN"⟩

/-- A humanness oracle that always succeeds. -/
def humannessOk : Option MChain → Option MChain → Except String AntibodyHumanness :=
  fun vh vl => .ok ⟨80, 90, vh.map (fun _ => ⟨70⟩), vl.map (fun _ => ⟨60⟩)⟩

/-- A second always-succeeding humanness oracle with different scores. -/
def humannessOk2 : Option MChain → Option MChain → Except String AntibodyHumanness :=
  fun vh vl => .ok ⟨10, 20, vh.map (fun _ => ⟨5⟩), vl.map (fun _ => ⟨6⟩)⟩

/-- Whether an argument chain is a humanized one (tagged by `humanizeOk`). -/
def isHumanizedArg : Option MChain → Bool
  | some c => c.seq = "HUMHSEQ" || c.seq = "HUMLSEQ" || c.seq = "HUMHSEQ2"
  | none => false

/-- Humanness oracle that raises exactly on humanized chains. -/
def humannessFailHumanized : Option MChain → Option MChain → Except String AntibodyHumanness :=
  fun vh vl =>
    if isHumanizedArg vh || isHumanizedArg vl then .error "oasis humanized fail"
    else humannessOk vh vl

/-- Like `humannessFailHumanized` but with `humannessOk2` parental scores. -/
def humannessFailHumanized2 : Option MChain → Option MChain → Except String AntibodyHumanness :=
  fun vh vl =>
    if isHumanizedArg vh || isHumanizedArg vl then .error "oasis humanized fail"
    else humannessOk2 vh vl

/-- Humanness oracle that raises exactly on parental chains. -/
def humannessFailParental : Option MChain → Option MChain → Except String AntibodyHumanness :=
  fun vh vl =>
    if isHumanizedArg vh || isHumanizedArg vl then humannessOk vh vl
    else .error "oasis parental fail"

/-- Everything succeeds. -/
def envOk : Env := ⟨classify0, humanizeOk, humannessOk⟩

/-- Everything succeeds, different auto-selected germlines. -/
def envOkG2 : Env := ⟨classify0, humanizeOkG2, humannessOk⟩

/-- Classification always raises `ChainParseError` with text `boom`. -/
def envParseBoom : Env := ⟨fun _ _ => .error "boom", humanizeOk, humannessOk⟩

/-- Humanization always raises with text `boom`. -/
def envHumBoom : Env := ⟨classify0, fun _ _ _ => .error "boom", humannessOk⟩

/-- Humanness scoring raises on the parental chains only. -/
def envOasisParentalFail : Env := ⟨classify0, humanizeOk, humannessFailParental⟩

/-- Humanness scoring raises on the humanized chains only. -/
def envOasisHumanizedFail : Env := ⟨classify0, humanizeOk, humannessFailHumanized⟩

/-- Humanness scoring raises on the humanized chains only; different
parental scores. -/
def envOasisHumanizedFail2 : Env := ⟨classify0, humanizeOk, humannessFailHumanized2⟩

/-- A heavy-chain record. -/
def recH : FastaRecord := ⟨"Ab1", "HSEQ"⟩

/-- A light-chain record. -/
def recL : FastaRecord := ⟨"Ab2", "LSEQ"⟩

/-- An unparseable record. -/
def recBad : FastaRecord := ⟨"Ab3", "BADSEQ"⟩

/-- The humanization result `humanizeOk` produces for `recH`. -/
def resH : HumanizationResult :=
  ⟨some ⟨⟨"HUMHSEQ", "Ab1", true, some "IGHV3-23*01"⟩, 3⟩, none, "ALN"⟩

/-! ### Per-record characterization lemmas -/

/-- A parse failure yields no entry and one `Error processing` message. -/
theorem processFull_parse_error (env : Env) (hp : HParams) (u : Bool)
    (r : FastaRecord) (e : String) (h : env.classify hp r.seq = .error e) :
    processFull env hp u r = (none, [.errorProcessing r.id e]) := by
  simp [processFull, h]

/-- A humanization failure yields no entry and one `Error processing`
message. -/
theorem processFull_humanize_error (env : Env) (hp : HParams) (u : Bool)
    (r : FastaRecord) (c0 : MChain) (e : String)
    (hc : env.classify hp r.seq = .ok c0)
    (hh : env.humanize (routeChains (withName r.id c0)).1
        (routeChains (withName r.id c0)).2 hp = .error e) :
    processFull env hp u r = (none, [.errorProcessing r.id e]) := by
  simp [processFull, hc, hh]

/-- A surviving record yields exactly one entry named after the record,
with humanness fields and log determined by the humanness block. -/
theorem processFull_ok (env : Env) (hp : HParams) (u : Bool)
    (r : FastaRecord) (c0 : MChain) (result : HumanizationResult)
    (hc : env.classify hp r.seq = .ok c0)
    (hh : env.humanize (routeChains (withName r.id c0)).1
        (routeChains (withName r.id c0)).2 hp = .ok result) :
    processFull env hp u r =
      (some (⟨r.id, result,
          (oasisBlock env u r.id (routeChains (withName r.id c0)) result).1.1,
          (oasisBlock env u r.id (routeChains (withName r.id c0)) result).1.2⟩,
        fullFastaRecs hp r.id result),
       (oasisBlock env u r.id (routeChains (withName r.id c0)) result).2) := by
  simp [processFull, hc, hh]

/-- A record produces an entry exactly when it survives classification and
humanization. -/
theorem processFull_fst_isSome (env : Env) (hp : HParams) (u : Bool)
    (r : FastaRecord) :
    (processFull env hp u r).1.isSome = surviveFull env hp r := by
  unfold surviveFull isParseFailure isHumanizationFailure
  cases hc : env.classify hp r.seq with
  | error e => rw [processFull_parse_error env hp u r e hc]; rfl
  | ok c0 =>
    cases hh : env.humanize (routeChains (withName r.id c0)).1
        (routeChains (withName r.id c0)).2 hp with
    | error e => rw [processFull_humanize_error env hp u r c0 e hc hh]; simp [hh]
    | ok result => rw [processFull_ok env hp u r c0 result hc hh]; simp [hh]

/-- Each record is exactly one of: parse failure, humanization failure,
survivor. -/
theorem recordFate (env : Env) (hp : HParams) (r : FastaRecord) :
    (isParseFailure env hp r = true ∧ isHumanizationFailure env hp r = false
        ∧ surviveFull env hp r = false)
    ∨ (isParseFailure env hp r = false ∧ isHumanizationFailure env hp r = true
        ∧ surviveFull env hp r = false)
    ∨ (isParseFailure env hp r = false ∧ isHumanizationFailure env hp r = false
        ∧ surviveFull env hp r = true) := by
  unfold surviveFull isParseFailure isHumanizationFailure
  cases hc : env.classify hp r.seq with
  | error e => simp
  | ok c0 =>
    cases hh : env.humanize (routeChains (withName r.id c0)).1
        (routeChains (withName r.id c0)).2 hp with
    | error e => simp
    | ok result => simp

/-- The three per-record fates partition the input. -/
theorem countP_fates (env : Env) (hp : HParams) (rs : List FastaRecord) :
    rs.countP (fun r => surviveFull env hp r)
      + rs.countP (fun r => isParseFailure env hp r)
      + rs.countP (fun r => isHumanizationFailure env hp r) = rs.length := by
  induction rs with
  | nil => rfl
  | cons r rs ih =>
    rcases recordFate env hp r with ⟨h1, h2, h3⟩ | ⟨h1, h2, h3⟩ | ⟨h1, h2, h3⟩ <;>
      simp [List.countP_cons, h1, h2, h3] <;> omega

/-- The RunResult names are exactly the ids of the surviving records, in
input order. -/
theorem runFullRecords_results_names (env : Env) (hp : HParams) (u : Bool)
    (rs : List FastaRecord) :
    (runFullRecords env hp u rs).results.map (fun en => en.name)
      = (rs.filter (fun r => surviveFull env hp r)).map (fun r => r.id) := by
  induction rs with
  | nil => rfl
  | cons r rs ih =>
    cases hc : env.classify hp r.seq with
    | error e =>
      have hp1 := processFull_parse_error env hp u r e hc
      have hsv : surviveFull env hp r = false := by
        rw [← processFull_fst_isSome env hp u r, hp1]; rfl
      simp only [runFullRecords]
      rw [hp1]
      simp [List.filter_cons, hsv, ih]
    | ok c0 =>
      cases hh : env.humanize (routeChains (withName r.id c0)).1
          (routeChains (withName r.id c0)).2 hp with
      | error e =>
        have hp1 := processFull_humanize_error env hp u r c0 e hc hh
        have hsv : surviveFull env hp r = false := by
          rw [← processFull_fst_isSome env hp u r, hp1]; rfl
        simp only [runFullRecords]
        rw [hp1]
        simp [List.filter_cons, hsv, ih]
      | ok result =>
        have hp1 := processFull_ok env hp u r c0 result hc hh
        have hsv : surviveFull env hp r = true := by
          rw [← processFull_fst_isSome env hp u r, hp1]; rfl
        simp only [runFullRecords]
        rw [hp1]
        simp [List.filter_cons, hsv, ih]

/-! ### Claim theorems -/

/-- C2: over every input list, the accumulated RunResult of full-report
mode lists exactly the surviving records (those failing neither
classification nor humanization), in input order: its name sequence equals
the id sequence of the surviving records, its length equals the input
length minus the parse-failure count minus the humanization-failure count
(hence is at most the input length), and the name sequence is a sublist of
the input id sequence, so no input record contributes more than one
entry. -/
theorem C2_runresult_invariants (env : Env) (hp : HParams) (u : Bool)
    (rs : List FastaRecord) :
    ((runFullRecords env hp u rs).results.map (fun en => en.name)
        = (rs.filter (fun r => surviveFull env hp r)).map (fun r => r.id))
    ∧ (runFullRecords env hp u rs).results.length
        = rs.length - rs.countP (fun r => isParseFailure env hp r)
          - rs.countP (fun r => isHumanizationFailure env hp r)
    ∧ (runFullRecords env hp u rs).results.length ≤ rs.length
    ∧ List.Sublist ((runFullRecords env hp u rs).results.map (fun en => en.name))
        (rs.map (fun r => r.id)) := by
  have hnames := runFullRecords_results_names env hp u rs
  have hcount := countP_fates env hp rs
  have hlen : (runFullRecords env hp u rs).results.length
      = rs.countP (fun r => surviveFull env hp r) := by
    have h2 := congrArg List.length hnames
    simpa [List.countP_eq_length_filter] using h2
  refine ⟨hnames, by omega, by omega, ?_⟩
  rw [hnames]
  exact List.Sublist.map _ (List.filter_sublist rs)

/-- C5: a positive record cap `n` makes both batch modes behave exactly as
if run on the length-`n` prefix of the input (records past the cap
contribute nothing to any output), and when the input is longer than the
cap, exactly `n` records are retained. -/
theorem C5_cap_retains_first_records (env : Env) (hp : HParams)
    (inputs : List FastaRecord) (out : Option String) (u : Bool) (n : Nat)
    (hn : 0 < n) :
    cdrgraft_full_report env hp inputs out u (some n)
        = cdrgraft_full_report env hp (inputs.take n) out u none
    ∧ cdrgraft_fasta_only env hp inputs out (some n)
        = cdrgraft_fasta_only env hp (inputs.take n) out none
    ∧ applyLimit (some n) inputs = inputs.take n
    ∧ (n < inputs.length → (applyLimit (some n) inputs).length = n) := by
  have hz : ¬ n = 0 := Nat.pos_iff_ne_zero.mp hn
  refine ⟨?_, ?_, ?_, ?_⟩
  · unfold cdrgraft_full_report applyLimit
    simp [hz]
  · unfold cdrgraft_fasta_only applyLimit
    simp [hz]
  · unfold applyLimit
    simp [hz]
  · intro hlt
    unfold applyLimit
    simp [hz]
    omega

/-- C5 witness: cap 1 over a two-record input retains exactly the first
record in both modes. -/
theorem C5_cap_retains_first_records_witness :
    0 < 1
    ∧ cdrgraft_full_report envOk hp0 [recH, recL] none false (some 1)
        = cdrgraft_full_report envOk hp0 ([recH, recL].take 1) none false none
    ∧ (applyLimit (some 1) [recH, recL]).length = 1 :=
  ⟨by decide,
   (C5_cap_retains_first_records envOk hp0 [recH, recL] none false 1 (by decide)).1,
   (C5_cap_retains_first_records envOk hp0 [recH, recL] none false 1 (by decide)).2.2.2
     (by decide)⟩

/-- C10: a record cap given as 0 is falsy in Python (`if limit:`), so both
batch modes treat it exactly like no cap at all: every input record is
processed. -/
theorem C10_zero_cap_means_no_cap (env : Env) (hp : HParams)
    (inputs : List FastaRecord) (out : Option String) (u : Bool) :
    cdrgraft_full_report env hp inputs out u (some 0)
        = cdrgraft_full_report env hp inputs out u none
    ∧ cdrgraft_fasta_only env hp inputs out (some 0)
        = cdrgraft_fasta_only env hp inputs out none
    ∧ applyLimit (some 0) inputs = inputs := by
  refine ⟨?_, ?_, ?_⟩
  · unfold cdrgraft_full_report applyLimit; simp
  · unfold cdrgraft_fasta_only applyLimit; simp
  · rfl

/-- C6 counterexample: a full-report run that reads zero records and has no
output destination produces no sequence artifact at all — nothing is
written to the default output stream (the code returns early after
`No valid sequences found!`), contradicting the claim that the sequence
artifact is always produced on the default stream in that mode. -/
theorem C6_counterexample :
    (cdrgraft_full_report envOk hp0 [] none true none).toStdout = none
    ∧ (cdrgraft_full_report envOk hp0 [] none true none).noValidSequences
        = true := by decide

/-- C6 amended: when no output destination is given and at least one record
is read, full-report mode emits the sequence artifact to the default output
stream and produces neither an alignment transcript nor a tabular summary;
fasta-only mode does so unconditionally (it never produces a transcript or
summary).  A full-report run that reads zero records produces no artifact
at all. -/
theorem C6_stdout_only_artifact (env : Env) (hp : HParams)
    (inputs : List FastaRecord) (u : Bool) (limit : Option Nat)
    (hne : (applyLimit limit inputs).isEmpty = false) :
    (cdrgraft_full_report env hp inputs none u limit).toStdout
        = some (runFullRecords env hp u (applyLimit limit inputs)).humanized_records
    ∧ (cdrgraft_full_report env hp inputs none u limit).fastaFile = none
    ∧ (cdrgraft_full_report env hp inputs none u limit).alignmentsFile = none
    ∧ (cdrgraft_full_report env hp inputs none u limit).reportRows = none
    ∧ (cdrgraft_fasta_only env hp inputs none limit).toStdout
        = some (runFastaOnly env hp (applyLimit limit inputs)).1
    ∧ (cdrgraft_fasta_only env hp inputs none limit).toFile = none := by
  simp [cdrgraft_full_report, cdrgraft_fasta_only, hne]

/-- C6 witness: a one-record run with no output destination. -/
theorem C6_stdout_only_artifact_witness :
    (applyLimit none [recH]).isEmpty = false
    ∧ (cdrgraft_full_report envOk hp0 [recH] none true none).toStdout
        = some (runFullRecords envOk hp0 true (applyLimit none [recH])).humanized_records
    ∧ (cdrgraft_full_report envOk hp0 [recH] none true none).alignmentsFile
        = none :=
  ⟨by decide,
   (C6_stdout_only_artifact envOk hp0 [recH] true none (by decide)).1,
   (C6_stdout_only_artifact envOk hp0 [recH] true none (by decide)).2.2.1⟩

/-- `humanize_antibody` raising in fasta-only mode yields no record and one
`Error processing` message. -/
theorem processFastaOnly_humanize_error (env : Env) (hp : HParams)
    (r : FastaRecord) (c0 : MChain) (e : String)
    (hc : env.classify hp r.seq = .ok c0)
    (hh : env.humanize (routeChains (withName r.id c0)).1
        (routeChains (withName r.id c0)).2 hp = .error e) :
    processFastaOnly env hp r = (none, [.errorProcessing r.id e]) := by
  simp [processFastaOnly, hc, hh]

/-- C1 counterexample: with a humanness oracle that raises on the parental
chains but succeeds on the humanized chains, the record stays in RunResult
with BOTH humanness fields absent: the humanized-side invocation is skipped
because the parental one failed (the two calls share one `try`), so the
invocations are not independent and a parental failure does not leave only
that side's field absent. -/
theorem C1_counterexample :
    ((processFull envOasisParentalFail hp0 true recH).1.map
        (fun pr => (pr.1.parental_humanness, pr.1.humanized_humanness)))
      = some (none, none)
    ∧ envOasisParentalFail.humanness (some ⟨"HSEQ", "Ab1", true, none⟩) none
      = .error "oasis parental fail"
    ∧ envOasisParentalFail.humanness
        (some ⟨"HUMHSEQ", "Ab1", true, some "IGHV3-23*01"⟩) none
      = .ok ⟨80, 90, some ⟨70⟩, none⟩
    ∧ humanizedChains resH
      = (some ⟨"HUMHSEQ", "Ab1", true, some "IGHV3-23*01"⟩, none) := by decide

/-- C1 amended: the two humanness invocations share one protected block and
run sequentially, not independently.  If the parental invocation raises,
the humanized invocation is skipped and both humanness fields are absent;
if the parental invocation succeeds and the humanized one raises, the
parental score is retained and only the humanized field is absent.  In
either case the record remains in RunResult (with its FASTA entries
emitted) and one warning naming the record is logged. -/
theorem C1_humanness_one_try_block (env : Env) (hp : HParams)
    (r : FastaRecord) (c0 : MChain) (result : HumanizationResult) (e : String)
    (hc : env.classify hp r.seq = .ok c0)
    (hh : env.humanize (routeChains (withName r.id c0)).1
        (routeChains (withName r.id c0)).2 hp = .ok result) :
    (env.humanness (routeChains (withName r.id c0)).1
        (routeChains (withName r.id c0)).2 = .error e →
      processFull env hp true r
        = (some (⟨r.id, result, none, none⟩, fullFastaRecs hp r.id result),
           [.oasisWarning r.id e]))
    ∧ (∀ p, env.humanness (routeChains (withName r.id c0)).1
          (routeChains (withName r.id c0)).2 = .ok p →
        env.humanness (humanizedChains result).1 (humanizedChains result).2
          = .error e →
      processFull env hp true r
        = (some (⟨r.id, result, some p, none⟩, fullFastaRecs hp r.id result),
           [.oasisWarning r.id e])) := by
  constructor
  · intro hpe
    rw [processFull_ok env hp true r c0 result hc hh]
    simp [oasisBlock, hpe]
  · intro p hpp hhe
    rw [processFull_ok env hp true r c0 result hc hh]
    simp [oasisBlock, hpp, hhe]

/-- C1 witness: the parental-failure branch evaluated on a concrete run. -/
theorem C1_humanness_one_try_block_witness :
    processFull envOasisParentalFail hp0 true recH
      = (some (⟨"Ab1", resH, none, none⟩, fullFastaRecs hp0 "Ab1" resH),
         [LogMsg.oasisWarning "Ab1" "oasis parental fail"]) :=
  (C1_humanness_one_try_block envOasisParentalFail hp0 recH
    ⟨"HSEQ", "", true, none⟩ resH "oasis parental fail"
    (by decide) (by decide)).1 (by decide)

/-- C4 counterexample: two runs whose parental humanness calls succeed with
DIFFERENT scores while the humanized-side call raises produce IDENTICAL
summary rows with every humanness column absent: the tabular summary has no
parental humanness columns to populate (it reads only the humanized-side
scores), refuting `parental humanness columns fully populated`.  The
record is still processed: its row is present. -/
theorem C4_counterexample :
    (cdrgraft_full_report envOasisHumanizedFail hp0 [recH]
        (some "out") true none).reportRows
      = (cdrgraft_full_report envOasisHumanizedFail2 hp0 [recH]
        (some "out") true none).reportRows
    ∧ (cdrgraft_full_report envOasisHumanizedFail hp0 [recH]
        (some "out") true none).reportRows
      = some [⟨"Ab1", none, none, none, none, 3⟩]
    ∧ envOasisHumanizedFail.humanness (some ⟨"HSEQ", "Ab1", true, none⟩) none
      = .ok ⟨80, 90, some ⟨70⟩, none⟩
    ∧ envOasisHumanizedFail2.humanness (some ⟨"HSEQ", "Ab1", true, none⟩) none
      = .ok ⟨10, 20, some ⟨5⟩, none⟩
    ∧ envOasisHumanizedFail.humanness
        (some ⟨"HUMHSEQ", "Ab1", true, some "IGHV3-23*01"⟩) none
      = .error "oasis humanized fail" := by decide

/-- C4 amended: batch records are single chains (the pipeline never pairs
heavy and light records), and the tabular summary has no parental humanness
columns at all.  When the humanness block fails on the humanized side, the
parental score is retained in the RunResult entry but the record's summary
row carries only the antibody name and the total mutation count, with every
humanness column absent; the record still counts as processed. -/
theorem C4_humanized_fail_row (env : Env) (hp : HParams) (r : FastaRecord)
    (c0 : MChain) (result : HumanizationResult) (p : AntibodyHumanness)
    (e : String)
    (hc : env.classify hp r.seq = .ok c0)
    (hh : env.humanize (routeChains (withName r.id c0)).1
        (routeChains (withName r.id c0)).2 hp = .ok result)
    (hpp : env.humanness (routeChains (withName r.id c0)).1
        (routeChains (withName r.id c0)).2 = .ok p)
    (hhe : env.humanness (humanizedChains result).1 (humanizedChains result).2
        = .error e) :
    processFull env hp true r
      = (some (⟨r.id, result, some p, none⟩, fullFastaRecs hp r.id result),
         [.oasisWarning r.id e])
    ∧ overviewRow ⟨r.id, result, some p, none⟩
      = ⟨r.id, none, none, none, none, totalMutations result⟩
    ∧ surviveFull env hp r = true := by
  refine ⟨?_, ?_, ?_⟩
  · rw [processFull_ok env hp true r c0 result hc hh]
    simp [oasisBlock, hpp, hhe]
  · simp [overviewRow]
  · unfold surviveFull isParseFailure isHumanizationFailure
    simp [hc, hh]

/-- C4 witness: a concrete run where only the humanized-side scoring
raises. -/
theorem C4_humanized_fail_row_witness :
    processFull envOasisHumanizedFail hp0 true recH
      = (some (⟨"Ab1", resH, some ⟨80, 90, some ⟨70⟩, none⟩, none⟩,
          fullFastaRecs hp0 "Ab1" resH),
         [LogMsg.oasisWarning "Ab1" "oasis humanized fail"])
    ∧ overviewRow ⟨"Ab1", resH, some ⟨80, 90, some ⟨70⟩, none⟩, none⟩
      = ⟨"Ab1", none, none, none, none, totalMutations resH⟩ :=
  ⟨(C4_humanized_fail_row envOasisHumanizedFail hp0 recH
      ⟨"HSEQ", "", true, none⟩ resH ⟨80, 90, some ⟨70⟩, none⟩
      "oasis humanized fail" (by decide) (by decide) (by decide) (by decide)).1,
   (C4_humanized_fail_row envOasisHumanizedFail hp0 recH
      ⟨"HSEQ", "", true, none⟩ resH ⟨80, 90, some ⟨70⟩, none⟩
      "oasis humanized fail" (by decide) (by decide) (by decide) (by decide)).2.1⟩

/-- C3 counterexample: in full-report mode a parse failure and a
humanization failure on the same record with the same exception text
produce IDENTICAL logs — the single `except Exception` handler emits
`Error processing ...` for both kinds, conflating them. -/
theorem C3_counterexample :
    (cdrgraft_full_report envParseBoom hp0 [recH] (some "out") false none).log
      = [LogMsg.errorProcessing "Ab1" "boom"]
    ∧ (cdrgraft_full_report envHumBoom hp0 [recH] (some "out") false none).log
      = [LogMsg.errorProcessing "Ab1" "boom"]
    ∧ isParseFailure envParseBoom hp0 recH = true
    ∧ isHumanizationFailure envParseBoom hp0 recH = false
    ∧ isParseFailure envHumBoom hp0 recH = false
    ∧ isHumanizationFailure envHumBoom hp0 recH = true := by decide

/-- C3 amended: in both batch modes a parse failure and a humanization
failure are each handled by skipping the record and continuing with the
remaining records, logging the offending record's identifier.  The two
failure kinds get distinct messages in fasta-only mode (`Warning: Could not
parse ...` vs `Error processing ...`), but full-report mode logs both
with the same `Error processing ...` message. -/
theorem C3_skip_and_continue (env : Env) (hp : HParams) (u : Bool)
    (r : FastaRecord) (rs : List FastaRecord) (e : String) :
    (env.classify hp r.seq = .error e →
        processFastaOnly env hp r = (none, [LogMsg.couldNotParse r.id e])
        ∧ processFull env hp u r = (none, [LogMsg.errorProcessing r.id e]))
    ∧ (isHumanizationFailure env hp r = true → ∃ e2,
        processFastaOnly env hp r = (none, [LogMsg.errorProcessing r.id e2])
        ∧ processFull env hp u r = (none, [LogMsg.errorProcessing r.id e2]))
    ∧ (runFastaOnly env hp (r :: rs)).1
        = (processFastaOnly env hp r).1.toList ++ (runFastaOnly env hp rs).1
    ∧ (runFullRecords env hp u (r :: rs)).results
        = (match (processFull env hp u r).1 with
           | none => (runFullRecords env hp u rs).results
           | some pr => pr.1 :: (runFullRecords env hp u rs).results) := by
  refine ⟨?_, ?_, ?_, ?_⟩
  · intro hc
    exact ⟨by simp [processFastaOnly, hc],
           processFull_parse_error env hp u r e hc⟩
  · intro hf
    rcases hc : env.classify hp r.seq with e1 | c0
    · simp only [isHumanizationFailure, hc] at hf; cases hf
    · simp only [isHumanizationFailure, hc] at hf
      rcases hh : env.humanize (routeChains (withName r.id c0)).1
          (routeChains (withName r.id c0)).2 hp with e2 | result
      · exact ⟨e2, processFastaOnly_humanize_error env hp r c0 e2 hc hh,
               processFull_humanize_error env hp u r c0 e2 hc hh⟩
      · rw [hh] at hf; cases hf
  · rfl
  · rcases hp1 : processFull env hp u r with ⟨o1, lg⟩
    cases o1 with
    | none => simp only [runFullRecords]; rw [hp1]
    | some pr =>
      obtain ⟨en, fr⟩ := pr
      simp only [runFullRecords]; rw [hp1]

/-- C3 witness: parse failure evaluated on a concrete run. -/
theorem C3_skip_and_continue_witness :
    processFastaOnly envParseBoom hp0 recH
      = (none, [LogMsg.couldNotParse "Ab1" "boom"])
    ∧ processFull envParseBoom hp0 false recH
      = (none, [LogMsg.errorProcessing "Ab1" "boom"]) :=
  (C3_skip_and_continue envParseBoom hp0 false recH [] "boom").1 (by decide)

/-- C9 counterexample: in the interactive session a classification failure
is silently skipped — the session log stays empty although the classifier
raised on the first collected line, so that non-fatal failure is logged
neither with an identifier nor with its error text. -/
theorem C9_counterexample :
    envOk.classify hp0 "BADSEQ" = .error "invalid sequence"
    ∧ (cdrgraft_interactive envOk hp0 false ["BADSEQ", "HSEQ", ""]).log = []
    ∧ (cdrgraft_interactive envOk hp0 false ["BADSEQ", "HSEQ", ""]).outcome
        = .done "ALN" none := by decide

/-- C9 amended: in the batch modes every non-fatal failure is logged with
the offending record's identifier and the exception text, and logging never
gates continuation — the loop's log is purely additive and the remaining
records' results are unchanged.  In the interactive session, however, a
classification failure is silently skipped with no log entry at all, and
the only log entries an interactive session can produce are humanness
warnings carrying the error text but no record identifier. -/
theorem C9_failures_logged (env : Env) (hp : HParams) (u : Bool)
    (r : FastaRecord) (rs : List FastaRecord) :
    (isParseFailure env hp r = true → ∃ e,
        env.classify hp r.seq = .error e
        ∧ (processFastaOnly env hp r).2 = [LogMsg.couldNotParse r.id e]
        ∧ (processFull env hp u r).2 = [LogMsg.errorProcessing r.id e])
    ∧ (isHumanizationFailure env hp r = true → ∃ e,
        (processFastaOnly env hp r).2 = [LogMsg.errorProcessing r.id e]
        ∧ (processFull env hp u r).2 = [LogMsg.errorProcessing r.id e])
    ∧ (runFullRecords env hp u (r :: rs)).log
        = (processFull env hp u r).2 ++ (runFullRecords env hp u rs).log
    ∧ (runFastaOnly env hp (r :: rs)).2
        = (processFastaOnly env hp r).2 ++ (runFastaOnly env hp rs).2
    ∧ (∀ ls, ∀ m ∈ (cdrgraft_interactive env hp u ls).log, ∃ e,
        m = LogMsg.oasisNoId e) := by
  refine ⟨?_, ?_, ?_, ?_, ?_⟩
  · intro hf
    rcases hc : env.classify hp r.seq with e1 | c0
    · exact ⟨e1, rfl,
        by rw [show processFastaOnly env hp r
            = (none, [LogMsg.couldNotParse r.id e1]) from
          by simp [processFastaOnly, hc]],
        by rw [processFull_parse_error env hp u r e1 hc]⟩
    · simp only [isParseFailure, hc] at hf; cases hf
  · intro hf
    rcases hc : env.classify hp r.seq with e1 | c0
    · simp only [isHumanizationFailure, hc] at hf; cases hf
    · simp only [isHumanizationFailure, hc] at hf
      rcases hh : env.humanize (routeChains (withName r.id c0)).1
          (routeChains (withName r.id c0)).2 hp with e2 | result
      · exact ⟨e2,
          by rw [processFastaOnly_humanize_error env hp r c0 e2 hc hh],
          by rw [processFull_humanize_error env hp u r c0 e2 hc hh]⟩
      · rw [hh] at hf; cases hf
  · rcases hp1 : processFull env hp u r with ⟨o1, lg⟩
    cases o1 with
    | none => simp only [runFullRecords]; rw [hp1]
    | some pr =>
      obtain ⟨en, fr⟩ := pr
      simp only [runFullRecords]; rw [hp1]
  · rfl
  · intro ls m hm
    simp only [cdrgraft_interactive] at hm
    split at hm
    · simp at hm
    · split at hm
      · simp at hm
      · split at hm
        · simp at hm
        · split at hm
          · split at hm
            · simp at hm
            · simp at hm
              exact ⟨_, hm⟩
          · simp at hm

/-- C9 witness: the batch logging facts evaluated on concrete failing
runs (a parse failure and a humanization failure). -/
theorem C9_failures_logged_witness :
    (∃ e, envOk.classify hp0 recBad.seq = .error e
        ∧ (processFastaOnly envOk hp0 recBad).2
            = [LogMsg.couldNotParse recBad.id e]
        ∧ (processFull envOk hp0 false recBad).2
            = [LogMsg.errorProcessing recBad.id e])
    ∧ (∃ e, (processFastaOnly envHumBoom hp0 recH).2
            = [LogMsg.errorProcessing recH.id e]
        ∧ (processFull envHumBoom hp0 false recH).2
            = [LogMsg.errorProcessing recH.id e]) :=
  ⟨(C9_failures_logged envOk hp0 false recBad []).1 (by decide),
   (C9_failures_logged envHumBoom hp0 false recH []).2.1 (by decide)⟩

/-- Every fasta-only output record is built from some humanized chain via
`fastaOnlyDescription`, under the record's own identifier. -/
theorem processFastaOnly_out_shape (env : Env) (hp : HParams)
    (r : FastaRecord) (orec : OutRecord)
    (h : (processFastaOnly env hp r).1 = some orec) :
    ∃ hc : MChain, orec = ⟨r.id, hc.seq, fastaOnlyDescription hp r.id hc⟩ := by
  rcases hc0 : env.classify hp r.seq with e | c0
  · rw [show processFastaOnly env hp r
        = (none, [LogMsg.couldNotParse r.id e]) from
      by simp [processFastaOnly, hc0]] at h
    cases h
  · rcases hh : env.humanize (routeChains (withName r.id c0)).1
        (routeChains (withName r.id c0)).2 hp with e | result
    · rw [processFastaOnly_humanize_error env hp r c0 e hc0 hh] at h
      cases h
    · have hrw : processFastaOnly env hp r
          = (match (if (withName r.id c0).is_heavy
              then result.vh.map (fun s => s.humanized_chain)
              else result.vl.map (fun s => s.humanized_chain)) with
             | none => (none, [])
             | some hc =>
               (some ⟨r.id, hc.seq, fastaOnlyDescription hp r.id hc⟩, [])) := by
        simp [processFastaOnly, hc0, hh]
      rw [hrw] at h
      rcases hhc : (if (withName r.id c0).is_heavy
          then result.vh.map (fun s => s.humanized_chain)
          else result.vl.map (fun s => s.humanized_chain)) with _ | hc
      · rw [hhc] at h; cases h
      · rw [hhc] at h
        exact ⟨hc, (Option.some.inj h).symm⟩

/-- Every full-report FASTA entry's description comes from
`fullReportDescription` at chain type `VH` or `VL`. -/
theorem fullFastaRecs_desc (hp : HParams) (rid : String)
    (result : HumanizationResult) (orec : OutRecord)
    (h : orec ∈ fullFastaRecs hp rid result) :
    ∃ ct, (ct = "VH" ∨ ct = "VL")
      ∧ orec.description = fullReportDescription hp rid ct := by
  unfold fullFastaRecs at h
  rcases List.mem_map.mp h with ⟨cr, _, heq⟩
  refine ⟨if cr.humanized_chain.is_heavy then "VH" else "VL", ?_, ?_⟩
  · cases hhv : cr.humanized_chain.is_heavy <;> simp [hhv]
  · rw [← heq]

/-- Entries appended by a surviving record are exactly its
`fullFastaRecs`. -/
theorem processFull_snd_shape (env : Env) (hp : HParams) (u : Bool)
    (r : FastaRecord) (pr : ResultEntry × List OutRecord) (lg : List LogMsg)
    (h : processFull env hp u r = (some pr, lg)) :
    ∃ result, pr.2 = fullFastaRecs hp r.id result := by
  rcases hc : env.classify hp r.seq with e | c0
  · rw [processFull_parse_error env hp u r e hc] at h
    simp at h
  · rcases hh : env.humanize (routeChains (withName r.id c0)).1
        (routeChains (withName r.id c0)).2 hp with e | result
    · rw [processFull_humanize_error env hp u r c0 e hc hh] at h
      simp at h
    · rw [processFull_ok env hp u r c0 result hc hh] at h
      have h1 := congrArg Prod.fst h
      have h2 := Option.some.inj h1
      exact ⟨result, by rw [← h2]⟩

/-- Every output record of a fasta-only run is shaped by
`fastaOnlyDescription`. -/
theorem runFastaOnly_out_shape (env : Env) (hp : HParams)
    (rs : List FastaRecord) (orec : OutRecord)
    (h : orec ∈ (runFastaOnly env hp rs).1) :
    ∃ rid hc, orec = ⟨rid, hc.seq, fastaOnlyDescription hp rid hc⟩ := by
  induction rs with
  | nil => cases h
  | cons r rs ih =>
    rcases hp1 : processFastaOnly env hp r with ⟨o1, lg⟩
    rw [show (runFastaOnly env hp (r :: rs)).1
        = o1.toList ++ (runFastaOnly env hp rs).1 from
      by simp only [runFastaOnly]; rw [hp1]] at h
    rcases List.mem_append.mp h with h1 | h2
    · cases o1 with
      | none => cases h1
      | some orec2 =>
        have : orec = orec2 := by
          cases h1 with
          | head => rfl
          | tail _ hmem => cases hmem
        obtain ⟨hc, hshape⟩ := processFastaOnly_out_shape env hp r orec
          (by rw [hp1, this])
        exact ⟨r.id, hc, hshape⟩
    · exact ih h2

/-- Every output record of a full-report run is shaped by
`fullReportDescription`. -/
theorem runFullRecords_out_shape (env : Env) (hp : HParams) (u : Bool)
    (rs : List FastaRecord) (orec : OutRecord)
    (h : orec ∈ (runFullRecords env hp u rs).humanized_records) :
    ∃ rid ct, (ct = "VH" ∨ ct = "VL")
      ∧ orec.description = fullReportDescription hp rid ct := by
  induction rs with
  | nil => cases h
  | cons r rs ih =>
    rcases hp1 : processFull env hp u r with ⟨o1, lg⟩
    cases o1 with
    | none =>
      rw [show (runFullRecords env hp u (r :: rs)).humanized_records
          = (runFullRecords env hp u rs).humanized_records from
        by simp only [runFullRecords]; rw [hp1]] at h
      exact ih h
    | some pr =>
      obtain ⟨en, fr⟩ := pr
      rw [show (runFullRecords env hp u (r :: rs)).humanized_records
          = fr ++ (runFullRecords env hp u rs).humanized_records from
        by simp only [runFullRecords]; rw [hp1]] at h
      rcases List.mem_append.mp h with h1 | h2
      · obtain ⟨result, hres⟩ := processFull_snd_shape env hp u r (en, fr) lg hp1
        obtain ⟨ct, hct, hdesc⟩ := fullFastaRecs_desc hp r.id result orec
          (by rw [← hres]; exact h1)
        exact ⟨r.id, ct, hct, hdesc⟩
      · exact ih h2

/-- C7 counterexample: two full-report runs that assign DIFFERENT germlines
produce the IDENTICAL sequence artifact — the full-report description is
built from the run parameters only and does not encode the assigned
germline (while fasta-only mode's artifact does differ). -/
theorem C7_counterexample :
    (cdrgraft_full_report envOk hp0 [recH] (some "out") false none).fastaFile
      = (cdrgraft_full_report envOkG2 hp0 [recH] (some "out") false none).fastaFile
    ∧ humanizeOk (some ⟨"HSEQ", "Ab1", true, none⟩) none hp0
      = .ok ⟨some ⟨⟨"HUMHSEQ", "Ab1", true, some "IGHV3-23*01"⟩, 3⟩, none, "ALN"⟩
    ∧ humanizeOkG2 (some ⟨"HSEQ", "Ab1", true, none⟩) none hp0
      = .ok ⟨some ⟨⟨"HUMHSEQ", "Ab1", true, some "IGHV1-2*01"⟩, 3⟩, none, "ALN"⟩
    ∧ cdrgraft_fasta_only envOk hp0 [recH] none none
      ≠ cdrgraft_fasta_only envOkG2 hp0 [recH] none none := by decide

/-- C7 amended: in fasta-only mode every sequence-artifact entry's
description is `fastaOnlyDescription`, which encodes the original
identifier, the chain type (VH/VL), the method summary (CDR definition,
Vernier flag, iteration count when positive, via the same text as
`get_export_name`) and the assigned germline (`v_gene`, or `auto`).  In
full-report mode every entry's description is `fullReportDescription`,
which encodes the identifier, the chain type and the method export name
but takes no germline input, so the assigned germline is not encoded
there. -/
theorem C7_description_encoding :
    (∀ env hp rs, ∀ orec ∈ (runFastaOnly env hp rs).1, ∃ rid hc,
        orec = OutRecord.mk rid hc.seq (fastaOnlyDescription hp rid hc))
    ∧ (∀ hp (rid : String) (hc : MChain), fastaOnlyDescription hp rid hc
        = rid ++ " " ++ (if hc.is_heavy then "VH" else "VL")
          ++ " (Humanized " ++ rid ++ " " ++ HParams.get_export_name hp
          ++ (hc.v_gene.getD "auto") ++ " BioPhi)")
    ∧ (∀ env hp u rs, ∀ orec ∈ (runFullRecords env hp u rs).humanized_records,
        ∃ rid ct, (ct = "VH" ∨ ct = "VL")
          ∧ orec.description = fullReportDescription hp rid ct)
    ∧ (∀ hp (rid ct : String), fullReportDescription hp rid ct
        = rid ++ " " ++ ct ++ " (Humanized " ++ rid ++ " "
          ++ HParams.get_export_name hp ++ "BioPhi)") := by
  refine ⟨?_, ?_, ?_, ?_⟩
  · intro env hp rs orec h
    exact runFastaOnly_out_shape env hp rs orec h
  · intro hp rid hc
    cases hv : hc.v_gene <;>
      simp [fastaOnlyDescription, HParams.get_export_name, hv]
  · intro env hp u rs orec h
    exact runFullRecords_out_shape env hp u rs orec h
  · intro hp rid ct
    rfl

/-- C7 witness: the encoding facts evaluated on a concrete run's output
record in each batch mode. -/
theorem C7_description_encoding_witness :
    (∃ rid hc, (OutRecord.mk "Ab1" "HUMHSEQ"
        (fastaOnlyDescription hp0 "Ab1"
          ⟨"HUMHSEQ", "Ab1", true, some "IGHV3-23*01"⟩))
      = OutRecord.mk rid hc.seq (fastaOnlyDescription hp0 rid hc))
    ∧ (∃ rid ct, (ct = "VH" ∨ ct = "VL")
        ∧ (OutRecord.mk "Ab1_VH" "HUMHSEQ"
            (fullReportDescription hp0 "Ab1" "VH")).description
          = fullReportDescription hp0 rid ct) :=
  ⟨C7_description_encoding.1 envOk hp0 [recH] _ (by decide),
   C7_description_encoding.2.2.1 envOk hp0 false [recH] _ (by decide)⟩

/-- C8: in the interactive session the parse loop ignores `>`-header
lines; an unparseable line is skipped without error; a line that classifies
heavy overwrites the VH slot and one that classifies light the VL slot
(last wins — the two-slot state retains at most one chain of each type and
a duplicate type raises no error); and when no collected line classifies,
the session reports failure (`noValidChains`) without invoking the
humanization or scoring stages: the outcome is identical for every
humanize/humanness oracle. -/
theorem C8_interactive_session (env : Env) (hp : HParams)
    (acc : Option MChain × Option MChain) (s : String) (c : MChain)
    (seqs : List String) (ls : List String) :
    (startsWithGt s = true → parseStep env hp acc s = acc)
    ∧ (startsWithGt s = false → ∀ e, env.classify hp s = .error e →
        parseStep env hp acc s = acc)
    ∧ (startsWithGt s = false → env.classify hp s = .ok c →
        c.is_heavy = true →
        parseChains env hp (seqs ++ [s])
          = (some (withName "VH" c), (parseChains env hp seqs).2))
    ∧ (startsWithGt s = false → env.classify hp s = .ok c →
        c.is_heavy = false →
        parseChains env hp (seqs ++ [s])
          = ((parseChains env hp seqs).1, some (withName "VL" c)))
    ∧ ((collectSequences ls).isEmpty = false →
        parseChains env hp (collectSequences ls) = (none, none) →
        ∀ hf hn, cdrgraft_interactive ⟨env.classify, hf, hn⟩ hp true ls
          = ⟨.noValidChains, []⟩) := by
  refine ⟨?_, ?_, ?_, ?_, ?_⟩
  · intro h1
    simp [parseStep, h1]
  · intro h1 e h2
    simp [parseStep, h1, h2]
  · intro h1 h2 h3
    simp [parseChains, List.foldl_append, parseStep, h1, h2, h3]
  · intro h1 h2 h3
    simp [parseChains, List.foldl_append, parseStep, h1, h2, h3]
  · intro hne hpc hf hn
    have hpc2 : parseChains (Env.mk env.classify hf hn) hp (collectSequences ls)
        = (none, none) := hpc
    simp [cdrgraft_interactive, hne, hpc2]

/-- C8 witness: header skipping, last-wins overwriting and the
failure exit evaluated on concrete sessions. -/
theorem C8_interactive_session_witness :
    parseStep envOk hp0 (none, none) ">header" = (none, none)
    ∧ parseChains envOk hp0 (["HSEQ"] ++ ["HSEQ2"])
        = (some (withName "VH" ⟨"HSEQ2", "", true, none⟩),
           (parseChains envOk hp0 ["HSEQ"]).2)
    ∧ cdrgraft_interactive
        ⟨envOk.classify, fun _ _ _ => .error "humanize never called",
         fun _ _ => .error "oasis never called"⟩ hp0 true ["BADSEQ", ""]
      = ⟨.noValidChains, []⟩ :=
  ⟨(C8_interactive_session envOk hp0 (none, none) ">header"
      ⟨"", "", true, none⟩ [] []).1 (by decide),
   (C8_interactive_session envOk hp0 (none, none) "HSEQ2"
      ⟨"HSEQ2", "", true, none⟩ ["HSEQ"] []).2.2.1
     (by decide) (by decide) (by decide),
   (C8_interactive_session envOk hp0 (none, none) "x"
      ⟨"x", "", false, none⟩ [] ["BADSEQ", ""]).2.2.2.2
     (by decide) (by decide) _ _⟩

end BioPhiCdrGraft
